import Mathlib

/-
Verification of the policy and state subsystem of the Mr. Tutor bot
(src/main.py): conversation-history lifecycle, sliding-window rate limiting,
bot availability, the acceptance gate, and JSON persistence defaults.

The definitions below are a shallow embedding of the corresponding Python
functions.  Wall-clock timestamps (Python epoch floats) are modelled as
rationals; Python dicts keyed by strings are modelled as association lists
with unique keys; the process-local usage log (a defaultdict of defaultdicts
of lists) is modelled as a total function returning the empty list by
default, exactly like defaultdict.
-/

namespace MrTutor

/-! ## Conversation history (src/main.py lines 37-38, 306-343) -/

inductive Role where
  | user
  | assistant
deriving DecidableEq, Repr

inductive Block where
  | textBlock (s : String)
  | imageBlock (url : String)
deriving DecidableEq, Repr

inductive Content where
  | text (s : String)
  | blocks (l : List Block)
deriving DecidableEq, Repr

structure Message where
  role : Role
  content : Content
deriving DecidableEq, Repr

def MAX_HISTORY_LENGTH : ℕ := 50

-- `conversation_history[user_id] = conversation_history[user_id][-MAX_HISTORY_LENGTH:]`
-- applied when `len(...) > MAX_HISTORY_LENGTH` (lines 322-323): keep the last 50.
def trim_history (l : List Message) : List Message :=
  if MAX_HISTORY_LENGTH < l.length then l.drop (l.length - MAX_HISTORY_LENGTH) else l

-- Lines 309-315: with attachments the user turn is a block list
-- `[text prompt] + attachments`; without, it is the plain prompt string.
def user_turn (prompt : String) (att : List Block) : Message :=
  if att = [] then ⟨Role.user, Content.text prompt⟩
  else ⟨Role.user, Content.blocks (Block.textBlock prompt :: att)⟩

-- Line 343: the `except` branch formats the exception into a reply string.
-- The exception's rendered text `type(e).__name__ - e` is modelled by `e`.
def poe_error_text (model e : String) : String :=
  "API/Model Error (`" ++ model ++ "`): " ++ e

-- `query_poe` (lines 306-343).  The Poe API call is the external boundary,
-- modelled by `api`: `.ok reply` when the call returns, `.error e` when it
-- raises.  Returns the reply text and the new conversation history.
def query_poe (hist : List Message) (prompt : String) (att : List Block)
    (api : Except String String) (model : String) : String × List Message :=
  let hist2 := trim_history (hist ++ [user_turn prompt att])
  match api with
  | Except.ok resp => (resp, hist2 ++ [⟨Role.assistant, Content.text resp⟩])
  | Except.error e => (poe_error_text model e, hist2)

-- `generate_image` (lines 345-358): no history involvement at all.
def generate_image (api : Except String String) : String :=
  match api with
  | Except.ok resp => resp
  | Except.error e => "Image generation error: " ++ e

/-! ## Association lists standing for Python dicts -/

def lookupKey {α : Type} (l : List (String × α)) (k : String) : Option α :=
  match l with
  | [] => none
  | (k1, v) :: rest => if k1 = k then some v else lookupKey rest k

-- `del d[k]` on a dict with unique keys.
def eraseKey {α : Type} (l : List (String × α)) (k : String) : List (String × α) :=
  l.filter (fun p => decide (p.1 ≠ k))

-- `d[k] = v` on a dict, up to lookup equivalence.
def setKey {α : Type} (l : List (String × α)) (k : String) (v : α) :
    List (String × α) :=
  (k, v) :: eraseKey l k

/-! ## Rate limiting (src/main.py lines 40-47, 176-233) -/

structure RateRule where
  per_minute : Option ℕ
  per_10min : Option ℕ
  per_hour : Option ℕ
  expires : Option ℚ
deriving DecidableEq, Repr

structure RateLimitTable where
  global : List (String × RateRule)
  users : List (String × List (String × RateRule))
deriving DecidableEq, Repr

-- `user_messages`: defaultdict(lambda: defaultdict(list)).
def UsageLog : Type := ℕ → String → List ℚ

-- Lines 182-187: drop timestamps older than one hour, for every user/type.
def prune_usage (now : ℚ) (u : UsageLog) : UsageLog :=
  fun uid ct => (u uid ct).filter (fun ts => decide (now - ts < 3600))

-- `len([ts for ts in timestamps if now - ts < window])`.
def count_in_window (now win : ℚ) (ts : List ℚ) : ℕ :=
  (ts.filter (fun t => decide (now - t < win))).length

-- One `"per_x" in limit_config and len([...]) >= limit_config["per_x"]` test.
def window_exceeded (now win : ℚ) (ts : List ℚ) : Option ℕ → Bool
  | none => false
  | some n => decide (n ≤ count_in_window now win ts)

def user_limit_msg (window ct : String) : String :=
  "You\x27ve exceeded the user rate limit (per " ++ window ++
    ") for this command type (`" ++ ct ++ "`)."

def global_limit_msg (window ct : String) : String :=
  "Global rate limit exceeded (per " ++ window ++
    ") for this command type (`" ++ ct ++ "`)."

-- The three window tests of one rule, in source order (minute, 10 minutes,
-- hour), returning the first violated window's message.
def find_violation (now : ℚ) (cfg : RateRule) (ts : List ℚ)
    (mkMsg : String → String) : Option String :=
  if window_exceeded now 60 ts cfg.per_minute then some (mkMsg "minute")
  else if window_exceeded now 600 ts cfg.per_10min then some (mkMsg "10 minutes")
  else if window_exceeded now 3600 ts cfg.per_hour then some (mkMsg "hour")
  else none

-- Line 194: `"expires" in limit_config and limit_config["expires"] and
-- now >= limit_config["expires"]`.  `none` covers an absent key or a JSON
-- null; Python truthiness makes the (unreachable) literal 0 falsy too.
def rule_expired (now : ℚ) : Option ℚ → Bool
  | none => false
  | some e => if e = 0 then false else decide (e ≤ now)

structure CheckResult where
  allowed : Bool
  reason : Option String
  table : RateLimitTable
  usage : UsageLog
  saved : Bool

def erase_user_rule (users : List (String × List (String × RateRule)))
    (uidStr ct : String) : List (String × List (String × RateRule)) :=
  users.map (fun p => if p.1 = uidStr then (p.1, eraseKey p.2 ct) else p)

-- Lines 212-229: the global-rule block shared by every fall-through path.
def check_global (rl : RateLimitTable) (u : UsageLog) (ts : List ℚ)
    (now : ℚ) (ct : String) (saved : Bool) : CheckResult :=
  match lookupKey rl.global ct with
  | some cfg =>
    match find_violation now cfg ts (fun w => global_limit_msg w ct) with
    | some msg => ⟨false, some msg, rl, u, saved⟩
    | none => ⟨true, none, rl, u, saved⟩
  | none => ⟨true, none, rl, u, saved⟩

-- `check_rate_limit` (lines 176-229).  Returns the verdict together with the
-- possibly mutated rate-limit table, the pruned usage log, and whether
-- `save_rate_limits()` ran (expired-rule deletion, lines 195-196).
def check_rate_limit (rl : RateLimitTable) (u0 : UsageLog) (now : ℚ)
    (uid : ℕ) (ct : String) : CheckResult :=
  let u := prune_usage now u0
  let ts := u uid ct
  match lookupKey rl.users (toString uid) with
  | some userRules =>
    match lookupKey userRules ct with
    | some cfg =>
      if rule_expired now cfg.expires then
        check_global ⟨rl.global, erase_user_rule rl.users (toString uid) ct⟩
          u ts now ct true
      else
        match find_violation now cfg ts (fun w => user_limit_msg w ct) with
        | some msg => ⟨false, some msg, rl, u, false⟩
        | none => check_global rl u ts now ct false
    | none => check_global rl u ts now ct false
  | none => check_global rl u ts now ct false

-- `record_message` (lines 231-233).
def record_message (u : UsageLog) (now : ℚ) (uid : ℕ) (ct : String) : UsageLog :=
  fun i c => if i = uid ∧ c = ct then u i c ++ [now] else u i c

-- The check-then-record loop of `process_chat_command`: each request is
-- checked; if allowed its timestamp is recorded (line 402) before dispatch.
def run_checks : RateLimitTable → UsageLog → ℕ → String → List ℚ →
    List (Bool × Option String)
  | _, _, _, _, [] => []
  | rl, u, uid, ct, t :: rest =>
    let r := check_rate_limit rl u t uid ct
    (r.allowed, r.reason) ::
      run_checks r.table
        (if r.allowed then record_message r.usage t uid ct else r.usage)
        uid ct rest

/-! ## Acceptance gate (src/main.py lines 235-246, 593-604) -/

-- `needs_acceptance` (lines 235-246): `timedelta(days=30)` is 2592000 s.
def needs_acceptance (now : ℚ) (acc : List (String × ℚ)) (uid : ℕ) : Bool :=
  match lookupKey acc (toString uid) with
  | none => true
  | some ts => decide (30 * 86400 < now - ts)

-- `user_acceptances[str(self.user_id)] = datetime.now().timestamp()`
-- (line 599 in `AcceptanceView.accept_button`).
def record_acceptance (now : ℚ) (acc : List (String × ℚ)) (uid : ℕ) :
    List (String × ℚ) :=
  setKey acc (toString uid) now

/-! ## Bot availability (src/main.py lines 44, 167-174, 742-768) -/

structure BotState where
  enabled : Bool
  disable_until : Option ℚ
deriving DecidableEq, Repr

-- `check_bot_state` (lines 167-174): returns the reported enabled flag, the
-- state afterwards, and whether `save_bot_state()` ran.  The outer Python
-- guard `bot_state["disable_until"]` is truthy only for a non-null, non-zero
-- deadline.
def check_bot_state (now : ℚ) (s : BotState) : Bool × BotState × Bool :=
  match s.enabled, s.disable_until with
  | false, some d =>
    if d ≠ 0 ∧ d ≤ now then (true, ⟨true, none⟩, true)
    else (false, s, false)
  | e, _ => (e, s, false)

-- `admin_toggle_bot` (lines 742-756), state transition only: sets
-- enabled=False, then the deadline from `minutes` (timedelta(minutes=m) is
-- m*60 seconds); always saves.
def admin_toggle_bot (now minutes : ℚ) : BotState × Bool :=
  if 0 < minutes then (⟨false, some (now + minutes * 60)⟩, true)
  else (⟨false, none⟩, true)

-- `admin_enable_bot` (lines 760-768), state transition only.
def admin_enable_bot : BotState × Bool :=
  (⟨true, none⟩, true)

-- States reachable from the default `{"enabled": True, "disable_until": None}`
-- (line 44) by the three bot-availability operations.
inductive BotReachable : BotState → Prop where
  | init : BotReachable ⟨true, none⟩
  | toggle (now minutes : ℚ) (s : BotState) :
      BotReachable s → BotReachable (admin_toggle_bot now minutes).1
  | enable (s : BotState) :
      BotReachable s → BotReachable admin_enable_bot.1
  | checkState (now : ℚ) (s : BotState) :
      BotReachable s → BotReachable (check_bot_state now s).2.1

/-! ## Persistence defaults (src/main.py lines 125-140) -/

-- What reading one JSON document can yield: the file is missing
-- (FileNotFoundError), unparseable (json.JSONDecodeError), or parses to `v`.
inductive FileRead (α : Type) where
  | absent
  | malformed
  | valid (v : α)
deriving DecidableEq, Repr

-- `load_json` (lines 125-130): both caught exceptions yield the default.
def load_json {α : Type} (file : FileRead α) (dflt : α) : α :=
  match file with
  | FileRead.valid v => v
  | FileRead.absent => dflt
  | FileRead.malformed => dflt

-- `load_persistent_data` (lines 136-140), with the three documented defaults.
def load_persistent_data (fLimits : FileRead RateLimitTable)
    (fState : FileRead BotState) (fAcc : FileRead (List (String × ℚ))) :
    RateLimitTable × BotState × List (String × ℚ) :=
  (load_json fLimits ⟨[], []⟩, load_json fState ⟨true, none⟩, load_json fAcc [])

/-! ## Command pipeline (src/main.py lines 362-461) and message gate (799-823) -/

-- Python falsiness of the optional query string (`if not user_query`).
def query_falsy : Option String → Bool
  | none => true
  | some s => decide (s = "")

structure ChatResult where
  sentMessage : Option String
  usage : UsageLog
  table : RateLimitTable
  recorded : Bool
  llmCalled : Bool
  promptedAcceptance : Bool

-- `process_chat_command` (lines 362-461).  `attachmentContents` is the result
-- of `process_attachments` at the attachment boundary (empty when there are
-- no attachments or none downloaded successfully); `api` is the Poe boundary.
def process_chat_command (rl : RateLimitTable) (u : UsageLog)
    (acc : List (String × ℚ)) (hist : List Message) (now : ℚ) (uid : ℕ)
    (query : Option String) (model : String) (useTutor : Bool) (ct : String)
    (isImageGen : Bool) (attachmentContents : List Block)
    (api : Except String String) : ChatResult × List Message :=
  -- 1. rate limit check (lines 366-372)
  let r := check_rate_limit rl u now uid ct
  if r.allowed = false then
    (⟨r.reason, r.usage, r.table, false, false, false⟩, hist)
  -- 2. acceptance check, non-tutor non-image only (lines 374-399)
  else if useTutor = false ∧ isImageGen = false ∧ needs_acceptance now acc uid = true then
    (⟨none, r.usage, r.table, false, false, true⟩, hist)
  else
    -- 3. record, process attachments (lines 401-413)
    let u1 := record_message r.usage now uid ct
    if query_falsy query ∧ attachmentContents = [] then
      -- lines 415-421: reject with no model call
      (⟨some "Please provide a message or attach a file after your command.",
        u1, r.table, true, false, false⟩, hist)
    else
      let q := match query with
               | none => "Can you help me understand this?"
               | some s => if s = "" then "Can you help me understand this?" else s
      -- 4./5. dispatch to the model (lines 427-461)
      if isImageGen then
        (⟨some (generate_image api), u1, r.table, true, true, false⟩, hist)
      else
        let qr := query_poe hist q attachmentContents api model
        (⟨some qr.1, u1, r.table, true, true, false⟩, qr.2)

structure OnMessageResult where
  dispatched : Bool
  state : BotState
  saved : Bool

-- `on_message` (lines 799-823).  Line 802 awaits `bot.process_commands`
-- before anything else, so prefix commands are dispatched unconditionally;
-- the disabled-state check at lines 808-810 runs afterwards, and nothing
-- follows its early `return`.
def on_message (s : BotState) (now : ℚ) (fromSelf authorIsAdmin : Bool) :
    OnMessageResult :=
  let dispatched := true  -- line 802: await bot.process_commands(message)
  if fromSelf then ⟨dispatched, s, false⟩  -- line 804
  else
    let r := check_bot_state now s  -- line 808
    if r.1 = false ∧ authorIsAdmin = false then
      ⟨dispatched, r.2.1, r.2.2⟩  -- line 810: return, but dispatch already ran
    else
      ⟨dispatched, r.2.1, r.2.2⟩  -- lines 812-823: comments and `pass` only

-- The global rate-limit table of the C3 scenario: one global rule for `ct`
-- capping only the hourly window at `n`, and no user-specific rules.
def hourOnlyTable (n : ℕ) (ct : String) : RateLimitTable :=
  ⟨[(ct, ⟨none, none, some n, none⟩)], []⟩

/-! ## Helper lemmas -/

theorem check_bot_state_state (now : ℚ) (s : BotState) :
    (check_bot_state now s).2.1 = s ∨ (check_bot_state now s).2.1 = ⟨true, none⟩ := by
  rcases s with ⟨e, d⟩
  cases e
  · cases d with
    | none => exact Or.inl rfl
    | some dv =>
      simp only [check_bot_state]
      split
      · exact Or.inr rfl
      · exact Or.inl rfl
  · exact Or.inl rfl

theorem length_trim_history (l : List Message) :
    (trim_history l).length = min l.length MAX_HISTORY_LENGTH := by
  unfold trim_history
  split
  · rename_i h
    rw [List.length_drop]
    omega
  · rename_i h
    omega

/-! ## Claim theorems -/

/-- Claim C9: at startup, each of the three persistence documents that is
absent or contains malformed JSON yields its documented default instead of an
error: the empty rate-limit table for `rate_limits.json`, the enabled state
with null deadline for `bot_state.json`, and the empty table for
`user_acceptances.json`. -/
theorem load_defaults (f1 : FileRead RateLimitTable) (f2 : FileRead BotState)
    (f3 : FileRead (List (String × ℚ))) :
    ((f1 = FileRead.absent ∨ f1 = FileRead.malformed) →
      (load_persistent_data f1 f2 f3).1 = ⟨[], []⟩)
    ∧ ((f2 = FileRead.absent ∨ f2 = FileRead.malformed) →
      (load_persistent_data f1 f2 f3).2.1 = ⟨true, none⟩)
    ∧ ((f3 = FileRead.absent ∨ f3 = FileRead.malformed) →
      (load_persistent_data f1 f2 f3).2.2 = []) := by
  refine ⟨?_, ?_, ?_⟩ <;> rintro (rfl | rfl) <;> rfl

/-- Witness for C9 at concrete file states. -/
theorem load_defaults_witness :
    (load_persistent_data FileRead.absent FileRead.malformed FileRead.absent).1
      = ⟨[], []⟩
    ∧ (load_persistent_data FileRead.absent FileRead.malformed
        FileRead.absent).2.1 = ⟨true, none⟩
    ∧ (load_persistent_data FileRead.absent FileRead.malformed
        FileRead.absent).2.2 = [] :=
  ⟨(load_defaults FileRead.absent FileRead.malformed FileRead.absent).1
      (Or.inl rfl),
   (load_defaults FileRead.absent FileRead.malformed FileRead.absent).2.1
      (Or.inr rfl),
   (load_defaults FileRead.absent FileRead.malformed FileRead.absent).2.2
      (Or.inl rfl)⟩

/-- Claim C2 is refuted by the code: `on_message` awaits
`bot.process_commands(message)` before the disabled-state check, and nothing
executable follows that check, so with the bot disabled indefinitely a
command message from a non-admin, non-bot author is still dispatched (and
answered) rather than silently dropped. -/
theorem disabled_gate_still_dispatches :
    (check_bot_state 0 ⟨false, none⟩).1 = false
    ∧ (on_message ⟨false, none⟩ 0 false false).dispatched = true := by
  exact ⟨rfl, rfl⟩

/-- Claim C5: disable(0) disables indefinitely with a null deadline, and the
enabled check then returns false forever without changing state; disable(m)
for m > 0 sets the deadline to now plus m minutes, the enabled check before
the deadline returns false and changes nothing, and the first check at or
after the deadline flips the state to enabled with a null deadline, persists
it, and returns true. -/
theorem bot_disable_semantics (now nowq m : ℚ) (hnow : 0 ≤ now) (hm : 0 < m) :
    (admin_toggle_bot now 0).1 = ⟨false, none⟩
    ∧ (∀ t : ℚ, check_bot_state t ⟨false, none⟩ = (false, ⟨false, none⟩, false))
    ∧ (admin_toggle_bot now m).1 = ⟨false, some (now + m * 60)⟩
    ∧ (now + m * 60 ≤ nowq →
        check_bot_state nowq (admin_toggle_bot now m).1 = (true, ⟨true, none⟩, true))
    ∧ (nowq < now + m * 60 →
        check_bot_state nowq (admin_toggle_bot now m).1
          = (false, ⟨false, some (now + m * 60)⟩, false)) := by
  have hd : now + m * 60 ≠ 0 := by positivity
  have htog : (admin_toggle_bot now m).1 = ⟨false, some (now + m * 60)⟩ := by
    simp [admin_toggle_bot, hm]
  refine ⟨by simp [admin_toggle_bot], fun t => rfl, htog, ?_, ?_⟩
  · intro hpast
    rw [htog]
    simp only [check_bot_state]
    rw [if_pos ⟨hd, hpast⟩]
  · intro hfut
    rw [htog]
    simp only [check_bot_state]
    rw [if_neg (fun h => absurd h.2 (not_le.mpr hfut))]

/-- Witness for C5: disable for 1 minute at time 0, check at time 60. -/
theorem bot_disable_semantics_witness :
    check_bot_state 60 (admin_toggle_bot 0 1).1 = (true, ⟨true, none⟩, true) :=
  (bot_disable_semantics 0 60 1 le_rfl one_pos).2.2.2.1 (by norm_num)

/-- Claim C6: in every bot-availability state reachable from the default by
disable, enable, and the side-effecting enabled check, if the bot is enabled
then the disable deadline is null. -/
theorem bot_state_invariant (s : BotState) (h : BotReachable s) :
    s.enabled = true → s.disable_until = none := by
  induction h with
  | init => intro _; rfl
  | toggle now minutes s h ih =>
    intro he
    by_cases hm : 0 < minutes <;> simp [admin_toggle_bot, hm] at he
  | enable s h ih => intro _; rfl
  | checkState now s h ih =>
    intro he
    rcases check_bot_state_state now s with hc | hc
    · rw [hc] at he ⊢
      exact ih he
    · rw [hc]

/-- Witness for C6 at the default state. -/
theorem bot_state_invariant_witness :
    (⟨true, none⟩ : BotState).disable_until = none :=
  bot_state_invariant ⟨true, none⟩ BotReachable.init rfl

/-- Claim C7: needsAcceptance is true iff no acceptance record exists for the
user or more than 30 days have elapsed since it; it is false immediately
after recordAcceptance, and true again once the clock advances past 30 days
from that acceptance. -/
theorem acceptance_gate_semantics (now now2 : ℚ) (acc : List (String × ℚ))
    (uid : ℕ) (h : 30 * 86400 < now2 - now) :
    (needs_acceptance now acc uid = true ↔
      (lookupKey acc (toString uid) = none ∨
       ∃ ts, lookupKey acc (toString uid) = some ts ∧ 30 * 86400 < now - ts))
    ∧ needs_acceptance now (record_acceptance now acc uid) uid = false
    ∧ needs_acceptance now2 (record_acceptance now acc uid) uid = true := by
  refine ⟨?_, ?_, ?_⟩
  · cases hl : lookupKey acc (toString uid) with
    | none => simp [needs_acceptance, hl]
    | some ts => simp [needs_acceptance, hl]
  · simp [needs_acceptance, record_acceptance, setKey, lookupKey]
  · simp [needs_acceptance, record_acceptance, setKey, lookupKey, h]

/-- Witness for C7: record at time 0, re-check just past 30 days. -/
theorem acceptance_gate_semantics_witness :
    needs_acceptance 2592001 (record_acceptance 0 [] 3) 3 = true :=
  (acceptance_gate_semantics 0 2592001 [] 3 (by norm_num)).2.2

/-- Claim C1 as stated is false at a concrete input: with a full conversation
history of 50 messages (25 user/assistant exchanges, the steady-state shape),
a successful exchange in `query_poe` leaves 51 entries, because the
assistant-turn append at line 336 is not followed by a truncation. -/
theorem conversation_cap_counterexample :
    MAX_HISTORY_LENGTH <
      (query_poe
        (List.flatten (List.replicate 25
          [⟨Role.user, Content.text "q"⟩, ⟨Role.assistant, Content.text "a"⟩]))
        "hi" [] (Except.ok "r") "GPT-5-mini").2.length
    ∧ (query_poe
        (List.flatten (List.replicate 25
          [⟨Role.user, Content.text "q"⟩, ⟨Role.assistant, Content.text "a"⟩]))
        "hi" [] (Except.ok "r") "GPT-5-mini").2.length
      = MAX_HISTORY_LENGTH + 1 := by
  constructor <;> decide

/-- Claim C1 amended: the user-turn append inside `query_poe` enforces the
50-entry cap, evicting oldest entries from the front; the assistant-turn
append does not truncate, so the resulting history holds at most 51 entries
(the cap is re-established at the next user-turn append). -/
theorem conversation_cap_amended (hist : List Message) (prompt : String)
    (att : List Block) (api : Except String String) (model : String) :
    (trim_history (hist ++ [user_turn prompt att])).length ≤ MAX_HISTORY_LENGTH
    ∧ (∃ dropped, dropped ++ trim_history (hist ++ [user_turn prompt att])
        = hist ++ [user_turn prompt att])
    ∧ (query_poe hist prompt att api model).2.length ≤ MAX_HISTORY_LENGTH + 1 := by
  have hlen := length_trim_history (hist ++ [user_turn prompt att])
  refine ⟨?_, ?_, ?_⟩
  · rw [hlen]
    exact min_le_right _ _
  · unfold trim_history
    split
    · exact ⟨(hist ++ [user_turn prompt att]).take _, List.take_append_drop _ _⟩
    · exact ⟨[], rfl⟩
  · cases api with
    | ok resp =>
      simp only [query_poe, List.length_append, List.length_singleton]
      omega
    | error e =>
      simp only [query_poe]
      omega

/-- Claim C8: when the Poe call raises, `query_poe` returns the formatted
error text instead of propagating; the history equals the pre-call history
with the user turn already appended (and trimmed), so the user turn remains
its last entry, and no assistant turn was added — in particular the failure
message is not stored as an assistant turn. -/
theorem poe_error_handling (hist : List Message) (prompt : String)
    (att : List Block) (e model : String) :
    (query_poe hist prompt att (Except.error e) model).1 = poe_error_text model e
    ∧ (query_poe hist prompt att (Except.error e) model).2
        = trim_history (hist ++ [user_turn prompt att])
    ∧ (query_poe hist prompt att (Except.error e) model).2.getLast?
        = some (user_turn prompt att)
    ∧ (user_turn prompt att).role = Role.user
    ∧ ∀ msg ∈ (query_poe hist prompt att (Except.error e) model).2,
        msg.role = Role.assistant → msg ∈ hist := by
  have hrole : (user_turn prompt att).role = Role.user := by
    unfold user_turn
    split <;> rfl
  have hlast : (trim_history (hist ++ [user_turn prompt att])).getLast?
      = some (user_turn prompt att) := by
    unfold trim_history
    split
    · rename_i h
      rw [List.drop_append_of_le_length (by simp [MAX_HISTORY_LENGTH] at h ⊢)]
      exact List.getLast?_concat _
    · exact List.getLast?_concat _
  refine ⟨rfl, rfl, hlast, hrole, ?_⟩
  intro msg hmem hasst
  have hmem2 : msg ∈ hist ++ [user_turn prompt att] := by
    revert hmem
    show msg ∈ trim_history (hist ++ [user_turn prompt att]) → _
    unfold trim_history
    split
    · exact fun hm => List.drop_subset _ _ hm
    · exact id
  rcases List.mem_append.mp hmem2 with hm | hm
  · exact hm
  · rw [List.mem_singleton.mp hm] at hasst
    rw [hrole] at hasst
    cases hasst

/-- Witness for C8 at a concrete failing call. -/
theorem poe_error_handling_witness :
    (query_poe [] "q" [] (Except.error "boom") "m").1 = poe_error_text "m" "boom"
    ∧ (query_poe [] "q" [] (Except.error "boom") "m").2.getLast?
      = some (user_turn "q" []) :=
  ⟨(poe_error_handling [] "q" [] "boom" "m").1,
   (poe_error_handling [] "q" [] "boom" "m").2.2.1⟩

theorem record_message_self (u : UsageLog) (now : ℚ) (uid : ℕ) (ct : String) :
    record_message u now uid ct uid ct = u uid ct ++ [now] := by
  simp [record_message]

theorem lookupKey_eraseKey_self {α : Type} (l : List (String × α)) (k : String) :
    lookupKey (eraseKey l k) k = none := by
  induction l with
  | nil => rfl
  | cons p rest ih =>
    by_cases h : p.1 = k
    · simpa [eraseKey, List.filter_cons, h] using ih
    · simpa [eraseKey, List.filter_cons, h, lookupKey] using ih

theorem erase_user_rule_cons (k1 : String) (v : List (String × RateRule))
    (rest : List (String × List (String × RateRule))) (k ct : String) :
    erase_user_rule ((k1, v) :: rest) k ct
      = (if k1 = k then (k1, eraseKey v ct) else (k1, v))
          :: erase_user_rule rest k ct := rfl

theorem lookupKey_erase_user_rule (users : List (String × List (String × RateRule)))
    (k ct : String) :
    lookupKey (erase_user_rule users k ct) k
      = (lookupKey users k).map (fun m => eraseKey m ct) := by
  induction users with
  | nil => rfl
  | cons p rest ih =>
    rcases p with ⟨k1, v⟩
    rw [erase_user_rule_cons]
    by_cases h : k1 = k
    · subst h
      rw [if_pos rfl]
      simp [lookupKey]
    · rw [if_neg h]
      simp only [lookupKey]
      rw [if_neg h, if_neg h]
      exact ih

theorem check_global_parts (rl : RateLimitTable) (u : UsageLog) (ts : List ℚ)
    (now : ℚ) (ct : String) (sv : Bool) :
    (check_global rl u ts now ct sv).table = rl
    ∧ (check_global rl u ts now ct sv).saved = sv
    ∧ (check_global rl u ts now ct sv).allowed
      = (check_global rl u ts now ct false).allowed
    ∧ (check_global rl u ts now ct sv).reason
      = (check_global rl u ts now ct false).reason := by
  cases hg : lookupKey rl.global ct with
  | none => simp [check_global, hg]
  | some cfg =>
    cases hv : find_violation now cfg ts (fun w => global_limit_msg w ct) with
    | none => simp [check_global, hg, hv]
    | some msg => simp [check_global, hg, hv]

/-- Claim C4: a check that finds a user-specific rule whose expiry timestamp
is in the past (expiry times are positive epoch seconds) deletes the rule
from the table, persists the table, and evaluates exactly as if the rule had
never existed, falling through to the global rule for that command type. -/
theorem expired_rule_check (rl : RateLimitTable) (u : UsageLog) (now e : ℚ)
    (uid : ℕ) (ct : String) (userRules : List (String × RateRule))
    (cfg : RateRule)
    (h1 : lookupKey rl.users (toString uid) = some userRules)
    (h2 : lookupKey userRules ct = some cfg)
    (h3 : cfg.expires = some e) (h4 : 0 < e) (h5 : e ≤ now) :
    (check_rate_limit rl u now uid ct).table
      = ⟨rl.global, erase_user_rule rl.users (toString uid) ct⟩
    ∧ (check_rate_limit rl u now uid ct).saved = true
    ∧ (check_rate_limit rl u now uid ct).allowed
      = (check_rate_limit ⟨rl.global, erase_user_rule rl.users (toString uid) ct⟩
          u now uid ct).allowed
    ∧ (check_rate_limit rl u now uid ct).reason
      = (check_rate_limit ⟨rl.global, erase_user_rule rl.users (toString uid) ct⟩
          u now uid ct).reason := by
  have hexp : rule_expired now cfg.expires = true := by
    rw [h3]
    simp [rule_expired, ne_of_gt h4, h5]
  have hL : check_rate_limit rl u now uid ct
      = check_global ⟨rl.global, erase_user_rule rl.users (toString uid) ct⟩
          (prune_usage now u) (prune_usage now u uid ct) now ct true := by
    simp only [check_rate_limit, h1, h2, hexp, if_true]
  have hR : check_rate_limit
        ⟨rl.global, erase_user_rule rl.users (toString uid) ct⟩ u now uid ct
      = check_global ⟨rl.global, erase_user_rule rl.users (toString uid) ct⟩
          (prune_usage now u) (prune_usage now u uid ct) now ct false := by
    simp [check_rate_limit, lookupKey_erase_user_rule, h1, lookupKey_eraseKey_self]
  rw [hL, hR]
  exact check_global_parts _ _ _ _ _ _

/-- Witness for C4: user 5 has an hour-expired rule for `normal`; the check
deletes it and persists. -/
theorem expired_rule_check_witness :
    (check_rate_limit
        ⟨[], [("5", [("normal", ⟨some 1, none, none, some 10⟩)])]⟩
        (fun _ _ => []) 20 5 "normal").table
      = ⟨[], [("5", [])]⟩
    ∧ (check_rate_limit
        ⟨[], [("5", [("normal", ⟨some 1, none, none, some 10⟩)])]⟩
        (fun _ _ => []) 20 5 "normal").saved = true :=
  ⟨(expired_rule_check ⟨[], [("5", [("normal", ⟨some 1, none, none, some 10⟩)])]⟩
      (fun _ _ => []) 20 10 5 "normal"
      [("normal", ⟨some 1, none, none, some 10⟩)] ⟨some 1, none, none, some 10⟩
      (by decide) (by decide) rfl (by norm_num) (by norm_num)).1,
   (expired_rule_check ⟨[], [("5", [("normal", ⟨some 1, none, none, some 10⟩)])]⟩
      (fun _ _ => []) 20 10 5 "normal"
      [("normal", ⟨some 1, none, none, some 10⟩)] ⟨some 1, none, none, some 10⟩
      (by decide) (by decide) rfl (by norm_num) (by norm_num)).2.1⟩

/-- Claim C10: a non-image invocation that passes the rate-limit check and
the acceptance gate but carries neither query text nor any successfully
processed attachment is rejected with an error message and no model call,
yet its timestamp was already recorded, so it still counts against the
user's rate limit. -/
theorem empty_query_still_counted (rl : RateLimitTable) (u : UsageLog)
    (acc : List (String × ℚ)) (hist : List Message) (now : ℚ) (uid : ℕ)
    (query : Option String) (model : String) (useTutor : Bool) (ct : String)
    (att : List Block) (api : Except String String)
    (hallow : (check_rate_limit rl u now uid ct).allowed = true)
    (hacc : useTutor = true ∨ needs_acceptance now acc uid = false)
    (hq : query_falsy query = true) (hatt : att = []) :
    (process_chat_command rl u acc hist now uid query model useTutor ct false
        att api).1.sentMessage
      = some "Please provide a message or attach a file after your command."
    ∧ (process_chat_command rl u acc hist now uid query model useTutor ct false
        att api).1.llmCalled = false
    ∧ (process_chat_command rl u acc hist now uid query model useTutor ct false
        att api).1.recorded = true
    ∧ (process_chat_command rl u acc hist now uid query model useTutor ct false
        att api).1.usage uid ct
      = (check_rate_limit rl u now uid ct).usage uid ct ++ [now] := by
  subst hatt
  rcases hacc with h2 | h2 <;>
    simp [process_chat_command, hallow, h2, hq, record_message]

/-- Witness for C10 at a concrete empty invocation. -/
theorem empty_query_still_counted_witness :
    (process_chat_command ⟨[], []⟩ (fun _ _ => []) [] [] 0 1 none "m" true
        "normal" false [] (Except.ok "r")).1.llmCalled = false
    ∧ (process_chat_command ⟨[], []⟩ (fun _ _ => []) [] [] 0 1 none "m" true
        "normal" false [] (Except.ok "r")).1.recorded = true :=
  ⟨(empty_query_still_counted ⟨[], []⟩ (fun _ _ => []) [] [] 0 1 none "m" true
      "normal" [] (Except.ok "r") rfl (Or.inl rfl) rfl rfl).2.1,
   (empty_query_still_counted ⟨[], []⟩ (fun _ _ => []) [] [] 0 1 none "m" true
      "normal" [] (Except.ok "r") rfl (Or.inl rfl) rfl rfl).2.2.1⟩

theorem run_checks_cons (rl : RateLimitTable) (u : UsageLog) (uid : ℕ)
    (ct : String) (t : ℚ) (rest : List ℚ) :
    run_checks rl u uid ct (t :: rest)
      = ((check_rate_limit rl u t uid ct).allowed,
         (check_rate_limit rl u t uid ct).reason)
        :: run_checks (check_rate_limit rl u t uid ct).table
            (if (check_rate_limit rl u t uid ct).allowed then
               record_message (check_rate_limit rl u t uid ct).usage t uid ct
             else (check_rate_limit rl u t uid ct).usage) uid ct rest := rfl

theorem check_hourOnly_eval (n uid : ℕ) (ct : String) (u : UsageLog) (now : ℚ) :
    check_rate_limit (hourOnlyTable n ct) u now uid ct =
      if n ≤ count_in_window now 3600 (prune_usage now u uid ct)
      then ⟨false, some (global_limit_msg "hour" ct), hourOnlyTable n ct,
            prune_usage now u, false⟩
      else ⟨true, none, hourOnlyTable n ct, prune_usage now u, false⟩ := by
  by_cases h : n ≤ count_in_window now 3600 (prune_usage now u uid ct) <;>
    simp [check_rate_limit, check_global, hourOnlyTable, lookupKey,
      find_violation, window_exceeded, h]

theorem count_in_window_prune (now : ℚ) (u : UsageLog) (uid : ℕ) (ct : String)
    (hle : ∀ t ∈ u uid ct, t ≤ now) :
    count_in_window now 3600 (prune_usage now u uid ct)
      = ((u uid ct).filter (fun t => decide (now - 3600 < t ∧ t ≤ now))).length := by
  show (((u uid ct).filter _).filter _).length = _
  rw [List.filter_filter]
  refine congrArg List.length (List.filter_congr fun t ht => ?_)
  have h1 := hle t ht
  simp only [Bool.and_self]
  rw [decide_eq_decide]
  constructor
  · intro h2
    exact ⟨by linarith, h1⟩
  · intro h2
    linarith [h2.1]

theorem run_checks_hour_aux (n uid : ℕ) (ct : String) :
    ∀ times : List ℚ, times ≠ [] → ∀ (P : List ℚ) (u : UsageLog),
      u uid ct = P →
      P.length + times.length = n + 1 →
      (∀ p ∈ P, ∀ t ∈ times, p ≤ t ∧ t - p < 3600) →
      List.Pairwise (· ≤ ·) times →
      (∀ s ∈ times, ∀ t ∈ times, s ≤ t → t - s < 3600) →
      run_checks (hourOnlyTable n ct) u uid ct times
        = List.replicate (n - P.length) (true, none)
          ++ [(false, some (global_limit_msg "hour" ct))] := by
  intro times
  induction times with
  | nil => exact fun h => absurd rfl h
  | cons t rest ih =>
    intro _ P u hP hlen hbound hpair hwin
    rw [List.length_cons] at hlen
    have hPt : ∀ p ∈ P, p ≤ t ∧ t - p < 3600 :=
      fun p hp => hbound p hp t (List.mem_cons_self t rest)
    have hprune : prune_usage t u uid ct = P := by
      show (u uid ct).filter _ = P
      rw [hP]
      exact List.filter_eq_self.mpr fun p hp => decide_eq_true (hPt p hp).2
    have hcount : count_in_window t 3600 (prune_usage t u uid ct) = P.length := by
      rw [hprune, count_in_window,
        List.filter_eq_self.mpr fun p hp => decide_eq_true (hPt p hp).2]
    rw [run_checks_cons, check_hourOnly_eval]
    by_cases hrest : rest = []
    · subst hrest
      have hPn : P.length = n := by
        simp only [List.length_nil] at hlen
        omega
      rw [if_pos (by rw [hcount]; omega)]
      show (false, some (global_limit_msg "hour" ct))
          :: run_checks (hourOnlyTable n ct) (prune_usage t u) uid ct []
        = List.replicate (n - P.length) (true, none)
          ++ [(false, some (global_limit_msg "hour" ct))]
      rw [hPn]
      simp [run_checks]
    · have hrlen : 0 < rest.length := List.length_pos.mpr hrest
      have hPn : P.length < n := by omega
      rw [if_neg (by rw [hcount]; omega)]
      show (true, (none : Option String))
          :: run_checks (hourOnlyTable n ct)
              (record_message (prune_usage t u) t uid ct) uid ct rest
        = List.replicate (n - P.length) (true, none)
          ++ [(false, some (global_limit_msg "hour" ct))]
      have hpc := List.pairwise_cons.mp hpair
      have hstep := ih hrest (P ++ [t])
        (record_message (prune_usage t u) t uid ct)
        (by rw [record_message_self, hprune])
        (by rw [List.length_append]; simp; omega)
        (by
          intro p hp s hs
          rcases List.mem_append.mp hp with hp2 | hp2
          · exact hbound p hp2 s (List.mem_cons_of_mem t hs)
          · have hpt : p = t := List.mem_singleton.mp hp2
            subst hpt
            exact ⟨hpc.1 s hs,
              hwin p (List.mem_cons_self p rest) s (List.mem_cons_of_mem p hs)
                (hpc.1 s hs)⟩)
        hpc.2
        (fun s hs t2 ht2 hle =>
          hwin s (List.mem_cons_of_mem t hs) t2 (List.mem_cons_of_mem t ht2) hle)
      rw [hstep]
      rw [List.length_append, List.length_singleton]
      have hsub : n - P.length = (n - (P.length + 1)) + 1 := by omega
      rw [hsub, List.replicate_succ, List.cons_append]

/-- Claim C3: with no user-specific rule and a global rule capping only
per_hour at N, a user issuing N+1 requests of that type within one hour
(recording after each allowed check) gets checks 1..N allowed and check N+1
denied, with a reason naming the word hour and the command type; and in
general that hourly limit denies exactly when at least N recorded timestamps
lie in the trailing window, inclusive of now and exclusive of now minus the
window length. -/
theorem rate_window_end_to_end (n uid : ℕ) (ct : String) (times : List ℚ)
    (hlen : times.length = n + 1)
    (hchain : List.Chain' (· ≤ ·) times)
    (hwin : ∀ s ∈ times, ∀ t ∈ times, s ≤ t → t - s < 3600) :
    run_checks (hourOnlyTable n ct) (fun _ _ => []) uid ct times
      = List.replicate n (true, none)
        ++ [(false, some (global_limit_msg "hour" ct))]
    ∧ (∃ a b : List Char,
        a ++ "hour".data ++ b = (global_limit_msg "hour" ct).data)
    ∧ (∃ a b : List Char,
        a ++ ct.data ++ b = (global_limit_msg "hour" ct).data)
    ∧ ∀ (u : UsageLog) (now : ℚ), (∀ t ∈ u uid ct, t ≤ now) →
        ((check_rate_limit (hourOnlyTable n ct) u now uid ct).allowed = false ↔
          n ≤ ((u uid ct).filter
            (fun t => decide (now - 3600 < t ∧ t ≤ now))).length) := by
  refine ⟨?_, ?_, ?_, ?_⟩
  · have hne : times ≠ [] := by
      intro h
      rw [h] at hlen
      simp only [List.length_nil] at hlen
      omega
    have h1 := run_checks_hour_aux n uid ct times hne [] (fun _ _ => []) rfl
      (by simp only [List.length_nil]; omega) (fun p hp => absurd hp (List.not_mem_nil p))
      (List.chain'_iff_pairwise.mp hchain) hwin
    simpa using h1
  · exact ⟨"Global rate limit exceeded (per ".data,
      (") for this command type (`" ++ ct ++ "`).").data,
      by simp [global_limit_msg]⟩
  · exact ⟨("Global rate limit exceeded (per " ++ "hour"
        ++ ") for this command type (`").data, "`).".data,
      by simp [global_limit_msg]⟩
  · intro u now hle
    rw [check_hourOnly_eval, ← count_in_window_prune now u uid ct hle]
    split_ifs with hc
    · simp [hc]
    · simp [hc]

/-- Witness for C3: limit 1 per hour, two requests at times 0 and 1. -/
theorem rate_window_end_to_end_witness :
    run_checks (hourOnlyTable 1 "normal") (fun _ _ => []) 7 "normal" [0, 1]
      = List.replicate 1 (true, none)
        ++ [(false, some (global_limit_msg "hour" "normal"))] :=
  (rate_window_end_to_end 1 7 "normal" [0, 1] (by decide)
    (by norm_num [List.chain'_cons, List.chain'_singleton])
    (by intro s hs t ht hle; fin_cases hs <;> fin_cases ht <;> norm_num)).1

end MrTutor
